import Mathlib

/-!
Shallow embedding of the SoapySDRPlay3 driver (TobiasWooldridge/SoapySDRPlay3)
used to check the natural-language specification against the code.

Each definition mirrors one function or data structure from the C++ sources:
  - src/SampleRate.cpp : sample-rate / bandwidth selection
  - src/Streaming.cpp  : the per-stream buffer ring (rx_callback,
    acquireReadBuffer, releaseReadBuffer)
  - src/RingBuffer.cpp : the cross-process shared ring (SharedRingBuffer::write)
  - src/Gain.cpp       : gain tables and scalar gain mapping
  - src/IPCPipe.cpp    : control-message serialization and pipe receive

Machine integers are modelled as Nat or Int with explicit wrap-around where
the code casts; doubles whose uses here are exact small-magnitude arithmetic
are modelled as rationals.
-/

set_option maxHeartbeats 1000000
set_option maxRecDepth 8192

namespace SoapySDRPlay3

/-! ### Bandwidth selection, from src/SampleRate.cpp -/

/-- The sdrplay_api_Bw_MHzT values the driver uses. -/
inductive BwMHz where
  | bw_0_200
  | bw_0_300
  | bw_0_600
  | bw_1_536
  | bw_5_000
  | bw_6_000
  | bw_7_000
  | bw_8_000
  deriving DecidableEq, Repr

/-- Embedding of SoapySDRPlay::getBwEnumForRate (src/SampleRate.cpp lines 365-375). -/

def getBwEnumForRate (output_sample_rate : ℚ) : BwMHz :=
  if output_sample_rate < 300000 then .bw_0_200
  else if output_sample_rate < 600000 then .bw_0_300
  else if output_sample_rate < 1536000 then .bw_0_600
  else if output_sample_rate < 5000000 then .bw_1_536
  else if output_sample_rate < 6000000 then .bw_5_000
  else if output_sample_rate < 7000000 then .bw_6_000
  else if output_sample_rate < 8000000 then .bw_7_000
  else .bw_8_000

/-- Embedding of SoapySDRPlay::getBwValueFromEnum (src/SampleRate.cpp lines 377-388). -/

def getBwValueFromEnum : BwMHz → ℚ
  | .bw_0_200 => 200000
  | .bw_0_300 => 300000
  | .bw_0_600 => 600000
  | .bw_1_536 => 1536000
  | .bw_5_000 => 5000000
  | .bw_6_000 => 6000000
  | .bw_7_000 => 7000000
  | .bw_8_000 => 8000000

/-- The set of bandwidth values named by the spec, in Hz. -/

def bwTableValues : List ℚ :=
  [200000, 300000, 600000, 1536000, 5000000, 6000000, 7000000, 8000000]

/-- C5 counterexample: at output rate 62500 Hz the mapping returns the 200 kHz
bandwidth, which is larger than the requested rate, so the result is not
the largest table value below or equal to the rate (no table value is). -/

inductive HwVer where
  | rsp1
  | rsp1a
  | rsp1b
  | rsp2
  | rspDuo
  | rspDx
  | rspDxR2
  deriving DecidableEq, Repr

/-- RSPduo sub-modes (sdrplay_api_RspDuoModeT). -/

inductive DuoMode where
  | unknown
  | singleTuner
  | dualTuner
  | master
  | slave
  deriving DecidableEq, Repr

/-- IF types (sdrplay_api_If_kHzT). -/

inductive IfKHz where
  | if_Zero
  | if_0_450
  | if_1_620
  | if_2_048
  deriving DecidableEq, Repr

/-- The fields of the selected device that the sample-rate logic reads. -/

structure RspDevice where
  hwVer : HwVer
  rspDuoMode : DuoMode
  rspDuoSampleFreq : ℚ
  hasDevParams : Bool
  deriving DecidableEq, Repr

/-- The low-IF type chosen in getInputSampleRateAndDecimation: 2.048 MHz for an
RSPduo whose sample clock is 8 MHz, else 1.620 MHz (src/SampleRate.cpp 189-195). -/

def lifIfType (dev : RspDevice) : IfKHz :=
  if dev.hwVer = HwVer.rspDuo ∧ dev.rspDuoSampleFreq = (8000000 : ℚ) then
    .if_2_048
  else
    .if_1_620

/-- The low-IF input sample rate: 8 MHz for an RSPduo whose sample clock is
8 MHz, else 6 MHz (src/SampleRate.cpp 189-195). -/

def lifInputRate (dev : RspDevice) : ℚ :=
  if dev.hwVer = HwVer.rspDuo ∧ dev.rspDuoSampleFreq = (8000000 : ℚ) then
    8000000
  else
    6000000

/-- Embedding of SoapySDRPlay::getInputSampleRateAndDecimation
(src/SampleRate.cpp lines 187-248). The result packs the returned input
sample rate with the three out-parameters (decM, decEnable, ifType); the
C++ sentinel return -1 becomes none. -/

def getInputSampleRateAndDecimation (dev : RspDevice) (r : ℕ) :
    Option (ℚ × ℕ × Bool × IfKHz) :=
  if r = 62500 then some (lifInputRate dev, 32, true, lifIfType dev)
  else if r = 125000 then some (lifInputRate dev, 16, true, lifIfType dev)
  else if r = 250000 then some (lifInputRate dev, 8, true, lifIfType dev)
  else if r = 500000 then some (lifInputRate dev, 4, true, lifIfType dev)
  else if r = 1000000 then some (lifInputRate dev, 2, true, lifIfType dev)
  else if r = 2000000 then some (lifInputRate dev, 1, false, lifIfType dev)
  else if dev.hwVer = HwVer.rspDuo ∧ dev.rspDuoMode ≠ DuoMode.singleTuner then none
  else if r ≤ 2000000 then
    if r = 96000 then some (((96000 * 32 : ℕ) : ℚ), 32, true, IfKHz.if_Zero)
    else if r = 192000 then some (((192000 * 16 : ℕ) : ℚ), 16, true, IfKHz.if_Zero)
    else if r = 384000 then some (((384000 * 8 : ℕ) : ℚ), 8, true, IfKHz.if_Zero)
    else if r = 768000 then some (((768000 * 4 : ℕ) : ℚ), 4, true, IfKHz.if_Zero)
    else none
  else some ((r : ℚ), 1, false, IfKHz.if_Zero)

/-- The device parameters touched by setSampleRate. -/

structure DeviceState where
  fsHz : ℚ
  ifType : IfKHz
  decEnable : Bool
  decimationFactor : ℕ
  wideBandSignal : Bool
  bwType : BwMHz
  bufferLength : ℕ
  cachedBufferThreshold : ℕ
  deriving DecidableEq, Repr

/-- Embedding of the parameter updates performed by SoapySDRPlay::setSampleRate
(src/SampleRate.cpp lines 38-106) in the RX direction; the vendor update call
and the stream reset flags are outside this state. -/

def setSampleRate (dev : RspDevice) (st : DeviceState) (r : ℕ) : DeviceState :=
  match getInputSampleRateAndDecimation dev r with
  | none => st
  | some (inputRate, decM, decEnable, ifType) =>
      let bwType := getBwEnumForRate (r : ℚ)
      let st1 :=
        if dev.hasDevParams = true ∧ inputRate ≠ st.fsHz then
          { st with fsHz := inputRate }
        else st
      let st2 := if ifType ≠ st1.ifType then { st1 with ifType := ifType } else st1
      let st3 :=
        if decM ≠ st2.decimationFactor then
          { st2 with
            decEnable := decEnable
            decimationFactor := decM
            wideBandSignal := (ifType = IfKHz.if_Zero)
            cachedBufferThreshold :=
              if 0 < decM then st2.bufferLength / decM else st2.bufferLength }
        else st2
      if bwType ≠ st3.bwType then { st3 with bwType := bwType } else st3

/-- A concrete non-Duo device used as a test input. -/

def rsp1Device : RspDevice :=
  { hwVer := .rsp1, rspDuoMode := .unknown, rspDuoSampleFreq := 0, hasDevParams := true }

/-- A concrete device-parameter state used as a test input. -/

def deviceState0 : DeviceState :=
  { fsHz := 2000000, ifType := .if_Zero, decEnable := false, decimationFactor := 1,
    wideBandSignal := true, bwType := .bw_1_536, bufferLength := 131072,
    cachedBufferThreshold := 131072 }

/-- The low-IF output rates (src/SampleRate.cpp lines 198-217). -/

def lowIfRates : List ℕ := [62500, 125000, 250000, 500000, 1000000, 2000000]

/-- The zero-IF decimated output rates (src/SampleRate.cpp lines 226-241). -/

def zeroIfDecimatedRates : List ℕ := [96000, 192000, 384000, 768000]

/-- C1 counterexample: at the requested rate 62500 Hz on a non-Duo device the
code selects input rate 6 MHz with decimation factor 32, but the claim says
the decimation factor is the input rate divided by the requested rate,
which is 96, not 32. -/

def numBuffers : ℕ := 8

/-- DEFAULT_ELEMS_PER_SAMPLE from src/SoapySDRPlay.hpp. -/

def elementsPerSample : ℕ := 2

/-- The per-stream ring state (SoapySDRPlayStream fields used by the ring). -/

structure StreamState where
  head : ℕ
  tail : ℕ
  count : ℕ
  bufs : List ℕ
  overflowEvent : Bool
  reset : Bool
  deriving DecidableEq, Repr

/-- The copy step at the end of rx_callback (src/Streaming.cpp lines 176-196):
grow the tail buffer by spaceReqd elements, or raise overflowEvent and drop
the burst when the resize would exceed the pre-reserved capacity. -/

def fillStreamBuffer (cap spaceReqd : ℕ) (s : StreamState) : StreamState :=
  let sz := s.bufs.getD s.tail 0
  if sz + spaceReqd > cap then
    { s with overflowEvent := true }
  else
    { s with bufs := s.bufs.set s.tail (sz + spaceReqd) }

/-- Embedding of the ring discipline of SoapySDRPlay::rx_callback
(src/Streaming.cpp lines 138-229), common to the CS16 and CF32 paths.
spaceReqd is numSamples times elementsPerSample; threshold is the cached
bufferLength / decimationFactor. The (tail+1) AND (numBuffers-1) mask is
written as a remainder, which is equal because numBuffers is a power of two. -/

def rxCallbackRing (cap threshold spaceReqd : ℕ) (s : StreamState) : StreamState :=
  if s.count = numBuffers then
    { s with overflowEvent := true }
  else
    let cur := s.bufs.getD s.tail 0
    if cur + spaceReqd ≥ threshold then
      let s1 : StreamState :=
        { s with tail := (s.tail + 1) % numBuffers, count := s.count + 1 }
      let next := s1.bufs.getD s1.tail 0
      if s1.count = numBuffers ∧ spaceReqd > cap - next then
        { s1 with overflowEvent := true }
      else
        fillStreamBuffer cap spaceReqd s1
    else
      fillStreamBuffer cap spaceReqd s

/-- Result of acquireReadBuffer: a buffer handle with its element count, the
SOAPY_SDR_OVERFLOW error, or SOAPY_SDR_TIMEOUT when no buffer arrives. -/

inductive AcquireResult where
  | ok (handle : ℕ) (elems : ℕ)
  | overflowErr
  | timeoutErr
  deriving DecidableEq, Repr

/-- The drain performed by acquireReadBuffer when reset or overflowEvent is
set (src/Streaming.cpp lines 831-845): head, tail and count return to zero
and every buffer is cleared. -/

def drainStream (s : StreamState) : StreamState :=
  { s with head := 0, tail := 0, count := 0,
           bufs := s.bufs.map (fun _ => 0), overflowEvent := false }

/-- The tail of acquireReadBuffer after the drain check (src/Streaming.cpp
lines 857-909): hand out the head buffer and advance head. A wait whose
predicate count greater than zero never turns true is a timeout. -/

def acquireCore (s : StreamState) : AcquireResult × StreamState :=
  if s.count = 0 then
    (.timeoutErr, s)
  else
    (.ok s.head (s.bufs.getD s.head 0 / elementsPerSample),
     { s with head := (s.head + 1) % numBuffers })

/-- Embedding of SoapySDRPlay::acquireReadBuffer (src/Streaming.cpp lines
814-909) on an available device. -/

def acquireReadBuffer (s : StreamState) : AcquireResult × StreamState :=
  if s.reset ∨ s.overflowEvent then
    let d := drainStream s
    if s.reset then
      acquireCore { d with reset := false }
    else
      (.overflowErr, d)
  else
    acquireCore s

/-- Embedding of SoapySDRPlay::releaseReadBuffer (src/Streaming.cpp lines
911-941): guarded against an empty ring and an out-of-range handle, then
clears the handle's buffer and decrements count. -/

def releaseReadBuffer (s : StreamState) (handle : ℕ) : StreamState :=
  if s.count = 0 then s
  else if s.bufs.length ≤ handle then s
  else { s with bufs := s.bufs.set handle 0, count := s.count - 1 }

/-- A concrete full stream state used as a test input. -/

def fullStream : StreamState :=
  { head := 0, tail := 7, count := 8,
    bufs := [4, 4, 4, 4, 4, 4, 4, 4], overflowEvent := false, reset := false }

/-- A concrete stream state with two queued buffers used as a test input. -/

def twoBufferStream : StreamState :=
  { head := 0, tail := 2, count := 2,
    bufs := [4, 6, 0, 0, 0, 0, 0, 0], overflowEvent := false, reset := false }

/-- C2: when the ring is full on arrival, or a burst does not fit in a
buffer's pre-reserved capacity, the callback raises overflowEvent and drops
the whole burst leaving every buffer's contents untouched; the next
acquireReadBuffer (with no concurrent reset) drains the ring, clears the
flag, and returns the OVERFLOW error exactly once, after which reads no
longer see OVERFLOW. -/

structure RingState where
  writeIdx : ℕ
  readIdx : ℕ
  sampleCount : ℕ
  overflowCount : ℕ
  overflowFlag : Bool
  deriving DecidableEq, Repr

/-- Embedding of SharedRingBuffer::recordOverflow (src/RingBuffer.cpp lines
307-311): bump overflowCount and set the RINGBUF_FLAG_OVERFLOW bit. -/

def recordOverflow (s : RingState) : RingState :=
  { s with overflowCount := s.overflowCount + 1, overflowFlag := true }

/-- Embedding of the counter updates of SharedRingBuffer::write
(src/RingBuffer.cpp lines 209-254). Returns the number of samples written.
The memcpy of sample data into the mapped region carries no counter state
and is not modelled. -/

def ringWrite (M : ℕ) (s : RingState) (count : ℕ) : ℕ × RingState :=
  let used := s.writeIdx - s.readIdx
  let available := M - used
  let s1 := if count > available then recordOverflow s else s
  let c := if count > available then available else count
  if c = 0 then
    (0, s1)
  else
    (c, { s1 with writeIdx := s1.writeIdx + c, sampleCount := s1.sampleCount + c })

/-- A concrete ring state used as a test input. -/

def ringState0 : RingState :=
  { writeIdx := 5, readIdx := 3, sampleCount := 5, overflowCount := 0,
    overflowFlag := false }

/-- C4: a write of count samples writes exactly
min count (M - (writeIdx - readIdx)) samples, increments overflowCount by
exactly one precisely when the request exceeds the free space, advances
writeIdx by exactly the number written, and preserves the occupancy bound
and the monotonicity of writeIdx, sampleCount and overflowCount. -/

structure GainState where
  agcEnabled : Bool
  gRdB : ℤ
  lnaState : ℤ
  desiredIfGr : ℤ
  desiredLnaState : ℤ
  deriving DecidableEq, Repr

/-- The two gain element names the driver lists. -/

inductive GainElement where
  | ifgr
  | rfgr
  deriving DecidableEq, Repr

/-- Embedding of SoapySDRPlay::setGain by element name (src/Gain.cpp lines
212-261). The double argument is truncated to int by the code; the model
takes the integer directly. The Bool result records whether the warning
about AGC being enabled was logged. -/

def setGainElement (s : GainState) (name : GainElement) (value : ℤ) : GainState × Bool :=
  match name with
  | .ifgr =>
      if s.agcEnabled = false then
        let s1 := { s with desiredIfGr := value }
        (if s1.gRdB ≠ value then { s1 with gRdB := value } else s1, false)
      else
        (s, true)
  | .rfgr =>
      let s1 := { s with desiredLnaState := value }
      (if s1.lnaState ≠ value then { s1 with lnaState := value } else s1, false)

/-- A concrete gain state with AGC enabled, used as a test input. -/

def agcOnState : GainState :=
  { agcEnabled := true, gRdB := 40, lnaState := 2, desiredIfGr := 40,
    desiredLnaState := 2 }

/-- C7: while AGC is enabled a setGain on IFGR logs the warning and leaves
gRdB (and all other state) unchanged, while a setGain on RFGR still updates
the LNA state; with AGC disabled, setGain on IFGR writes gRdB. -/

def getLnaGainReductions (hwVer : HwVer) (rfHz : ℚ) (antenna : String) : List ℤ :=
  match hwVer with
  | .rsp1 =>
      if rfHz ≤ 420000000 then [0, 24, 19, 43]
      else if rfHz ≤ 1000000000 then [0, 7, 19, 26]
      else [0, 5, 19, 24]
  | .rsp1a =>
      if rfHz ≤ 60000000 then [0, 6, 12, 18, 37, 42, 61]
      else if rfHz ≤ 420000000 then [0, 6, 12, 18, 20, 26, 32, 38, 57, 62]
      else if rfHz ≤ 1000000000 then [0, 7, 13, 19, 20, 27, 33, 39, 45, 64]
      else [0, 6, 12, 20, 26, 32, 38, 43, 62]
  | .rsp1b =>
      if rfHz ≤ 60000000 then [0, 6, 12, 18, 37, 42, 61]
      else if rfHz ≤ 420000000 then [0, 6, 12, 18, 20, 26, 32, 38, 57, 62]
      else if rfHz ≤ 1000000000 then [0, 7, 13, 19, 20, 27, 33, 39, 45, 64]
      else [0, 6, 12, 20, 26, 32, 38, 43, 62]
  | .rsp2 =>
      if rfHz ≤ 60000000 ∧ antenna = "Hi-Z" then [0, 6, 12, 18, 37]
      else if rfHz ≤ 420000000 then [0, 10, 15, 21, 24, 34, 39, 45, 64]
      else if rfHz ≤ 1000000000 then [0, 7, 10, 17, 22, 41]
      else [0, 5, 21, 15, 15, 34]
  | .rspDuo =>
      if rfHz ≤ 60000000 ∧ antenna = "Tuner 1 Hi-Z" then [0, 6, 12, 18, 37]
      else if rfHz ≤ 60000000 then [0, 6, 12, 18, 37, 42, 61]
      else if rfHz ≤ 420000000 then [0, 6, 12, 18, 20, 26, 32, 38, 57, 62]
      else if rfHz ≤ 1000000000 then [0, 7, 13, 19, 20, 27, 33, 39, 45, 64]
      else [0, 6, 12, 20, 26, 32, 38, 43, 62]
  | .rspDx =>
      if rfHz ≤ 2000000 then
        [0, 3, 6, 9, 12, 15, 18, 21, 24, 25, 27, 30, 33, 36, 39, 42, 45, 48, 51,
         54, 57, 60]
      else if rfHz ≤ 12000000 then
        [0, 3, 6, 9, 12, 15, 24, 27, 30, 33, 36, 39, 42, 45, 48, 51, 54, 57, 60]
      else if rfHz ≤ 60000000 then
        [0, 3, 6, 9, 12, 15, 18, 24, 27, 30, 33, 36, 39, 42, 45, 48, 51, 54, 57, 60]
      else if rfHz ≤ 250000000 then
        [0, 3, 6, 9, 12, 15, 24, 27, 30, 33, 36, 39, 42, 45, 48, 51, 54, 57, 60, 63,
         66, 69, 72, 75, 78, 81, 84]
      else if rfHz ≤ 420000000 then
        [0, 3, 6, 9, 12, 15, 18, 24, 27, 30, 33, 36, 39, 42, 45, 48, 51, 54, 57, 60,
         63, 66, 69, 72, 75, 78, 81, 84]
      else if rfHz ≤ 1000000000 then
        [0, 7, 10, 13, 16, 19, 22, 25, 31, 34, 37, 40, 43, 46, 49, 52, 55, 58, 61,
         64, 67]
      else
        [0, 5, 8, 11, 14, 17, 20, 32, 35, 38, 41, 44, 47, 50, 53, 56, 59, 62, 65]
  | .rspDxR2 =>
      if rfHz ≤ 2000000 then
        [0, 3, 6, 9, 12, 15, 18, 21, 24, 25, 27, 30, 33, 36, 39, 42, 45, 48, 51,
         54, 57, 60]
      else if rfHz ≤ 12000000 then
        [0, 3, 6, 9, 12, 15, 24, 27, 30, 33, 36, 39, 42, 45, 48, 51, 54, 57, 60]
      else if rfHz ≤ 60000000 then
        [0, 3, 6, 9, 12, 15, 18, 24, 27, 30, 33, 36, 39, 42, 45, 48, 51, 54, 57, 60]
      else if rfHz ≤ 250000000 then
        [0, 3, 6, 9, 12, 15, 24, 27, 30, 33, 36, 39, 42, 45, 48, 51, 54, 57, 60, 63,
         66, 69, 72, 75, 78, 81, 84]
      else if rfHz ≤ 420000000 then
        [0, 3, 6, 9, 12, 15, 18, 24, 27, 30, 33, 36, 39, 42, 45, 48, 51, 54, 57, 60,
         63, 66, 69, 72, 75, 78, 81, 84]
      else if rfHz ≤ 1000000000 then
        [0, 7, 10, 13, 16, 19, 22, 25, 31, 34, 37, 40, 43, 46, 49, 52, 55, 58, 61,
         64, 67]
      else
        [0, 5, 8, 11, 14, 17, 20, 32, 35, 38, 41, 44, 47, 50, 53, 56, 59, 62, 65]

/-- Embedding of getLnaGainReduction (src/Gain.cpp lines 117-123): reduction
for a given LNA state, falling back to the last entry when out of range. -/

def getLnaGainReduction (hwVer : HwVer) (rfHz : ℚ) (lnaState : ℤ)
    (antenna : String) : ℤ :=
  let rs := getLnaGainReductions hwVer rfHz antenna
  if lnaState < 0 ∨ (rs.length : ℤ) ≤ lnaState then rs.getLastD 0
  else rs.getD lnaState.toNat 0

/-- The LNA gain of a state: maximum reduction minus the state's reduction
(src/Gain.cpp line 333). -/

def lnaGainOf (rs : List ℤ) (i : ℕ) : ℚ :=
  ((rs.getLastD 0 - rs.getD i 0 : ℤ) : ℚ)

/-- The clamp of the needed IF gain to the range 0..39 dB
(src/Gain.cpp lines 337-338). -/

def clampIf (q : ℚ) : ℚ :=
  let a := if q < 0 then 0 else q
  if a > 39 then 39 else a

/-- The IF gain reduction the setter picks for one LNA state: 59 minus the
clamped needed IF gain truncated to int (src/Gain.cpp line 340); the clamped
value is nonnegative, so the truncation is a floor. -/

def candIfGr (rs : List ℤ) (t : ℚ) (i : ℕ) : ℤ :=
  59 - Int.floor (clampIf (t - lnaGainOf rs i))

/-- The total gain actually attained by the candidate for one LNA state
(src/Gain.cpp lines 341-342). -/

def candActual (rs : List ℤ) (t : ℚ) (i : ℕ) : ℚ :=
  lnaGainOf rs i + ((59 - candIfGr rs t i : ℤ) : ℚ)

/-- The candidate's error against the target (src/Gain.cpp line 343). -/

def candErr (rs : List ℤ) (t : ℚ) (i : ℕ) : ℚ :=
  |candActual rs t i - t|

/-- The linear scan over LNA states of the overall setGain
(src/Gain.cpp lines 331-351), keeping the strictly best candidate. -/

def selectGainAux (rs : List ℤ) (t : ℚ) :
    List ℕ → ℕ × ℤ × ℚ → ℕ × ℤ × ℚ
  | [], acc => acc
  | st :: rest, acc =>
      let e := candErr rs t st
      if e < acc.2.2 then
        selectGainAux rs t rest (st, candIfGr rs t st, e)
      else
        selectGainAux rs t rest acc

/-- The maximum overall gain: maximum LNA reduction plus 39 dB of IF gain
(src/Gain.cpp lines 317-318). -/

def maxGainOf (hwVer : HwVer) (rfHz : ℚ) : ℚ :=
  (((getLnaGainReductions hwVer rfHz "").getLastD 0 : ℤ) : ℚ) + 39

/-- Embedding of the overall SoapySDRPlay::setGain (src/Gain.cpp lines
299-374): clamp the target, scan the LNA states, apply the best pair;
gRdB is only written when AGC is disabled. -/

def setGain (hwVer : HwVer) (rfHz : ℚ) (s : GainState) (value : ℚ) : GainState :=
  let rs := getLnaGainReductions hwVer rfHz ""
  let maxLnaState := rs.length - 1
  let maxGain := maxGainOf hwVer rfHz
  let target := max 0 (min maxGain value)
  let best := selectGainAux rs target (List.range (maxLnaState + 1)) (0, 20, maxGain)
  { s with
    desiredLnaState := (best.1 : ℤ)
    desiredIfGr := best.2.1
    lnaState := (best.1 : ℤ)
    gRdB := if s.agcEnabled = false then best.2.1 else s.gRdB }

/-- Embedding of the overall SoapySDRPlay::getGain (src/Gain.cpp lines
376-398): LNA gain from the tables plus the clamped IF gain. -/

def getGain (hwVer : HwVer) (rfHz : ℚ) (s : GainState) : ℚ :=
  let rs := getLnaGainReductions hwVer rfHz ""
  let maxRed := rs.getLastD 0
  let lnaRed := getLnaGainReduction hwVer rfHz s.lnaState ""
  let lnaGain : ℚ := ((maxRed - lnaRed : ℤ) : ℚ)
  let ifGain0 : ℚ := 59 - (s.gRdB : ℚ)
  let ifGain1 := if ifGain0 < 0 then 0 else ifGain0
  let ifGain := if ifGain1 > 39 then 39 else ifGain1
  lnaGain + ifGain

/-- The structural property of every shipped reduction table that drives the
round-trip bound: it is nonempty, starts at zero reduction, its last entry
is nonnegative, and the LNA gains it induces leave no gap wider than 38 dB
below the maximum reduction. -/

def coverProp (rs : List ℤ) : Prop :=
  rs ≠ [] ∧ rs.getD 0 0 = 0 ∧ 0 ≤ rs.getLastD 0 ∧
  ∀ k ∈ List.range ((rs.getLastD 0).toNat + 1), ∃ i ∈ List.range rs.length,
    rs.getLastD 0 - rs.getD i 0 ≤ (k : ℤ) ∧
    (k : ℤ) ≤ rs.getLastD 0 - rs.getD i 0 + 38

instance (rs : List ℤ) : Decidable (coverProp rs) := by
  unfold coverProp
  infer_instance

/-- Every band of every supported variant ships a table satisfying coverProp. -/

def agcOffState : GainState :=
  { agcEnabled := false, gRdB := 40, lnaState := 0, desiredIfGr := 40,
    desiredLnaState := 0 }

def toU32 (n : ℕ) : ℕ := n % 4294967296

/-- The four bytes memcpy writes for a uint32. -/

def le32 (n : ℕ) : List ℕ :=
  [n % 256, n / 256 % 256, n / 65536 % 256, n / 16777216 % 256]

/-- The uint32 memcpy reads back from four bytes. -/

def decode32 (bs : List ℕ) : ℕ :=
  bs.getD 0 0 + bs.getD 1 0 * 256 + bs.getD 2 0 * 65536 + bs.getD 3 0 * 16777216

/-- The strict byte-wise lexicographic order on byte strings, as
std::string comparison orders the keys of the params map. -/

def lexLt : List ℕ → List ℕ → Bool
  | [], [] => false
  | [], _ :: _ => true
  | _ :: _, [] => false
  | a :: as, b :: bs => if a < b then true else if b < a then false else lexLt as bs

/-- Ordered insertion with replacement: the effect of the std::map
index operator on the map's iteration sequence. -/

def mapInsert (k v : List ℕ) : List (List ℕ × List ℕ) → List (List ℕ × List ℕ)
  | [] => [(k, v)]
  | (k1, v1) :: rest =>
      if lexLt k k1 then (k, v) :: (k1, v1) :: rest
      else if k = k1 then (k, v) :: rest
      else (k1, v1) :: mapInsert k v rest

/-- A control message: the uint32 value of the IPCMessageType and the params
map, modelled as its iteration sequence (an association list in strictly
increasing key order, the std::map invariant). -/

structure IPCMessage where
  type : ℕ
  params : List (List ℕ × List ℕ)
  deriving DecidableEq, Repr

/-- One key-value entry as IPCMessage::serialize appends it
(src/IPCPipe.cpp lines 91-106): 4-byte length, key bytes, 4-byte length,
value bytes; the lengths pass through a uint32 cast that also bounds how
many bytes memcpy copies. -/

def serializeParam (kv : List ℕ × List ℕ) : List ℕ :=
  le32 (toU32 kv.1.length) ++ kv.1.take (toU32 kv.1.length) ++
  le32 (toU32 kv.2.length) ++ kv.2.take (toU32 kv.2.length)

/-- Embedding of IPCMessage::serialize (src/IPCPipe.cpp lines 74-109). -/

def serialize (m : IPCMessage) : List ℕ :=
  le32 (toU32 m.type) ++ le32 (toU32 m.params.length) ++
    m.params.flatMap serializeParam

/-- The param-reading loop of IPCMessage::deserialize (src/IPCPipe.cpp lines
129-153): fuel is the announced numParams; the loop also stops at the end of
the data and breaks when a length prefix or body would run past the end. -/

def readParams : ℕ → List ℕ → List (List ℕ × List ℕ) → List (List ℕ × List ℕ)
  | 0, _, _acc => _acc
  | n + 1, rest, acc =>
      if rest = [] then acc
      else if rest.length < 4 then acc
      else
        let keyLen := decode32 (rest.take 4)
        let rest1 := rest.drop 4
        if rest1.length < keyLen then acc
        else
          let key := rest1.take keyLen
          let rest2 := rest1.drop keyLen
          if rest2.length < 4 then acc
          else
            let valLen := decode32 (rest2.take 4)
            let rest3 := rest2.drop 4
            if rest3.length < valLen then acc
            else
              readParams n (rest3.drop valLen) (mapInsert key (rest3.take valLen) acc)

/-- Embedding of IPCMessage::deserialize (src/IPCPipe.cpp lines 111-156).
Data shorter than the 8-byte header yields the default message
(type STATUS_ACK = 108, empty params). -/

def deserialize (data : List ℕ) : IPCMessage :=
  if data.length < 8 then { type := 108, params := [] }
  else
    { type := decode32 (data.take 4),
      params := readParams (decode32 ((data.drop 4).take 4)) (data.drop 8) [] }

/-- The pipe state receive touches: the descriptor validity and the bytes
readable from it. -/

structure PipeState where
  fdValid : Bool
  input : List ℕ
  deriving DecidableEq, Repr

/-- Embedding of IPCPipe::readExact (src/IPCPipe.cpp lines 214-250) in a
sequential model: succeed and consume when enough bytes are buffered,
otherwise time out. -/

def readExact (s : PipeState) (count : ℕ) : Option (List ℕ) × PipeState :=
  if s.fdValid = false then (none, s)
  else if s.input.length < count then (none, s)
  else (some (s.input.take count), { s with input := s.input.drop count })

/-- Embedding of IPCPipe::receive (src/IPCPipe.cpp lines 305-330): read the
4-byte length, reject frames above 1 MiB (log and return false without
closing the descriptor), else read and deserialize the payload. -/

def receive (s : PipeState) : Option IPCMessage × PipeState :=
  match readExact s 4 with
  | (none, s1) => (none, s1)
  | (some lenBytes, s1) =>
      let len := decode32 lenBytes
      if len > 1048576 then (none, s1)
      else
        match readExact s1 len with
        | (none, s2) => (none, s2)
        | (some payload, s2) => (some (deserialize payload), s2)

/-- A concrete pipe whose next frame announces 2 MiB, twice the maximum. -/

def oversizedPipe : PipeState := { fdValid := true, input := le32 2097152 }

def sampleMsg : IPCMessage :=
  { type := 5, params := [([107, 49], [97]), ([107, 50], [98, 99])] }

/-- Witness for C8: the round trip evaluated on a concrete two-entry map. -/

def u32Count : ℕ := 4294967296

def hugeMsg : IPCMessage :=
  { type := 1,
    params := (List.range u32Count).map (fun i => (List.replicate i 0, [])) }

theorem bw_not_below_rate_at_62500 :
    ¬ getBwValueFromEnum (getBwEnumForRate 62500) ≤ 62500 := by
  norm_num [getBwEnumForRate, getBwValueFromEnum]

/-- C5 (amended): getBwEnumForRate is total; for every rate of at least
200 kHz it returns the largest table value that does not exceed the rate;
below 200 kHz it returns the minimum table entry of 200 kHz; and the four
concrete values named by the spec hold. -/

theorem bw_enum_largest_le_rate (r : ℚ) :
    (200000 ≤ r →
      getBwValueFromEnum (getBwEnumForRate r) ≤ r ∧
      ∀ v ∈ bwTableValues, v ≤ r → v ≤ getBwValueFromEnum (getBwEnumForRate r)) ∧
    (r < 200000 → getBwEnumForRate r = .bw_0_200) ∧
    getBwValueFromEnum (getBwEnumForRate 299999) = 200000 ∧
    getBwValueFromEnum (getBwEnumForRate 300000) = 300000 ∧
    getBwValueFromEnum (getBwEnumForRate 5000000) = 5000000 ∧
    getBwValueFromEnum (getBwEnumForRate 10000000) = 8000000 := by
  refine ⟨?_, ?_, by norm_num [getBwEnumForRate, getBwValueFromEnum],
    by norm_num [getBwEnumForRate, getBwValueFromEnum],
    by norm_num [getBwEnumForRate, getBwValueFromEnum],
    by norm_num [getBwEnumForRate, getBwValueFromEnum]⟩
  · intro hr
    unfold getBwEnumForRate
    split_ifs with h1 h2 h3 h4 h5 h6 h7 <;>
      refine ⟨by simp [getBwValueFromEnum]; linarith, ?_⟩ <;>
      · intro v hv hvr
        simp only [bwTableValues, List.mem_cons, List.not_mem_nil, or_false] at hv
        rcases hv with rfl | rfl | rfl | rfl | rfl | rfl | rfl | rfl <;>
          simp [getBwValueFromEnum] <;> linarith
  · intro hr
    unfold getBwEnumForRate
    split_ifs <;> first | rfl | linarith

/-- Witness for C5: the theorem evaluated at the concrete rate 2 MHz. -/

theorem bw_enum_largest_le_rate_witness :
    (200000 : ℚ) ≤ 2000000 ∧
      getBwValueFromEnum (getBwEnumForRate 2000000) ≤ 2000000 :=
  ⟨by norm_num, ((bw_enum_largest_le_rate 2000000).1 (by norm_num)).1⟩

/-! ### Sample-rate selection, from src/SampleRate.cpp -/

/-- Hardware variant tags (hwVer values used by the driver). -/

theorem sample_rate_dec_factor_counterexample :
    getInputSampleRateAndDecimation rsp1Device 62500 =
      some (6000000, 32, true, IfKHz.if_1_620) ∧
    (6000000 : ℚ) / 62500 ≠ ((32 : ℕ) : ℚ) := by
  constructor
  · decide
  · norm_num

/-- C1 (amended): the rate mapping behaves as the claim states except that in
the low-IF branch the decimation factor is 2 MHz divided by the requested
rate (the low-IF path has a native 2 MHz output), not the input rate divided
by the requested rate: rates in the low-IF set select low-IF with input
6 MHz (8 MHz on an 8 MHz-clocked RSPduo), IF 1.620 MHz (2.048 MHz in the
8 MHz case) and decimation 2 MHz / r in 32..1; on a non-Duo or
Duo-single-tuner device the four zero-IF rates decimate down from 3.072 MHz
(input = r times the decimation factor) and rates above 2 MHz pass through
undecimated; every other rate is rejected, and a rejected rate leaves all
device parameters unchanged. -/

theorem sample_rate_mapping (dev : RspDevice) (st : DeviceState) (r : ℕ) :
    (r ∈ lowIfRates →
      getInputSampleRateAndDecimation dev r =
        some (lifInputRate dev, 2000000 / r, decide (r ≠ 2000000), lifIfType dev) ∧
      2000000 / r ∈ [32, 16, 8, 4, 2, 1]) ∧
    (¬(dev.hwVer = HwVer.rspDuo ∧ dev.rspDuoMode ≠ DuoMode.singleTuner) →
      (r ∈ zeroIfDecimatedRates →
        getInputSampleRateAndDecimation dev r =
          some (((r * (3072000 / r) : ℕ) : ℚ), 3072000 / r, true, IfKHz.if_Zero) ∧
        3072000 / r ∈ [32, 16, 8, 4]) ∧
      (2000000 < r →
        getInputSampleRateAndDecimation dev r = some ((r : ℚ), 1, false, IfKHz.if_Zero)) ∧
      (r ≤ 2000000 → r ∉ lowIfRates → r ∉ zeroIfDecimatedRates →
        getInputSampleRateAndDecimation dev r = none)) ∧
    (dev.hwVer = HwVer.rspDuo ∧ dev.rspDuoMode ≠ DuoMode.singleTuner →
      r ∉ lowIfRates → getInputSampleRateAndDecimation dev r = none) ∧
    (getInputSampleRateAndDecimation dev r = none → setSampleRate dev st r = st) := by
  refine ⟨?_, ?_, ?_, ?_⟩
  · intro hr
    simp only [lowIfRates, List.mem_cons, List.not_mem_nil, or_false] at hr
    rcases hr with rfl | rfl | rfl | rfl | rfl | rfl <;>
      exact ⟨by norm_num [getInputSampleRateAndDecimation], by decide⟩
  · intro hduo
    refine ⟨?_, ?_, ?_⟩
    · intro hr
      simp only [zeroIfDecimatedRates, List.mem_cons, List.not_mem_nil, or_false] at hr
      rcases hr with rfl | rfl | rfl | rfl <;>
        exact ⟨by norm_num [getInputSampleRateAndDecimation, hduo], by decide⟩
    · intro hr
      have h1 : r ≠ 62500 := by omega
      have h2 : r ≠ 125000 := by omega
      have h3 : r ≠ 250000 := by omega
      have h4 : r ≠ 500000 := by omega
      have h5 : r ≠ 1000000 := by omega
      have h6 : r ≠ 2000000 := by omega
      have h8 : ¬ r ≤ 2000000 := by omega
      simp only [getInputSampleRateAndDecimation, if_neg h1, if_neg h2, if_neg h3,
        if_neg h4, if_neg h5, if_neg h6, if_neg hduo, if_neg h8]
    · intro hr hlow hzero
      simp only [lowIfRates, List.mem_cons, List.not_mem_nil, or_false, not_or] at hlow
      simp only [zeroIfDecimatedRates, List.mem_cons, List.not_mem_nil, or_false,
        not_or] at hzero
      obtain ⟨h1, h2, h3, h4, h5, h6⟩ := hlow
      obtain ⟨g1, g2, g3, g4⟩ := hzero
      simp only [getInputSampleRateAndDecimation, if_neg h1, if_neg h2, if_neg h3,
        if_neg h4, if_neg h5, if_neg h6, if_neg hduo, if_pos hr, if_neg g1, if_neg g2,
        if_neg g3, if_neg g4]
  · intro hduo hlow
    simp only [lowIfRates, List.mem_cons, List.not_mem_nil, or_false, not_or] at hlow
    obtain ⟨h1, h2, h3, h4, h5, h6⟩ := hlow
    simp only [getInputSampleRateAndDecimation, if_neg h1, if_neg h2, if_neg h3,
      if_neg h4, if_neg h5, if_neg h6, if_pos hduo]
  · intro hnone
    simp only [setSampleRate, hnone]

/-- Witness for C1: the theorem evaluated at concrete inputs, a supported
low-IF rate and a rejected rate. -/

theorem sample_rate_mapping_witness :
    (getInputSampleRateAndDecimation rsp1Device 62500 =
      some (lifInputRate rsp1Device, 2000000 / 62500, decide ((62500 : ℕ) ≠ 2000000),
        lifIfType rsp1Device)) ∧
    setSampleRate rsp1Device deviceState0 100 = deviceState0 :=
  ⟨((sample_rate_mapping rsp1Device deviceState0 62500).1 (by decide)).1,
   (sample_rate_mapping rsp1Device deviceState0 100).2.2.2 (by decide)⟩

/-! ### Per-stream buffer ring, from src/Streaming.cpp

The stream keeps numBuffers pre-reserved sample buffers. A buffer is
modelled by its current size in elements; the pre-reserved capacity cap
and the advance threshold are parameters (bufferLength and
cachedBufferThreshold in the code). The vendor callback never reallocates,
so capacities are constant. -/

/-- DEFAULT_NUM_BUFFERS from src/SoapySDRPlay.hpp. -/

theorem stream_overflow_protocol (cap threshold spaceReqd : ℕ) (s : StreamState) :
    (s.count = numBuffers →
      rxCallbackRing cap threshold spaceReqd s = { s with overflowEvent := true }) ∧
    (s.overflowEvent = false →
      (rxCallbackRing cap threshold spaceReqd s).overflowEvent = true →
      (rxCallbackRing cap threshold spaceReqd s).bufs = s.bufs) ∧
    (s.bufs.getD s.tail 0 + spaceReqd > cap →
      fillStreamBuffer cap spaceReqd s = { s with overflowEvent := true }) ∧
    (s.overflowEvent = true → s.reset = false →
      acquireReadBuffer s = (.overflowErr, drainStream s) ∧
      (drainStream s).head = 0 ∧ (drainStream s).tail = 0 ∧
      (drainStream s).count = 0 ∧ (∀ b ∈ (drainStream s).bufs, b = 0) ∧
      (drainStream s).overflowEvent = false) ∧
    (s.overflowEvent = false → s.reset = false →
      (acquireReadBuffer s).1 ≠ .overflowErr) := by
  refine ⟨?_, ?_, ?_, ?_, ?_⟩
  · intro h
    unfold rxCallbackRing
    rw [if_pos h]
  · intro hov hraise
    simp only [rxCallbackRing, fillStreamBuffer] at hraise ⊢
    split_ifs at hraise ⊢ <;> simp_all
  · intro h
    simp only [fillStreamBuffer]
    rw [if_pos h]
  · intro hov hr
    refine ⟨?_, rfl, rfl, rfl, ?_, rfl⟩
    · unfold acquireReadBuffer
      rw [if_pos (by simp [hov]), if_neg (by simp [hr])]
    · intro b hb
      simp only [drainStream, List.mem_map] at hb
      obtain ⟨a, _, rfl⟩ := hb
      rfl
  · intro hov hr
    unfold acquireReadBuffer acquireCore
    rw [if_neg (by simp [hov, hr])]
    split_ifs <;> simp

/-- Witness for C2: the theorem evaluated on a concrete full ring. -/

theorem stream_overflow_protocol_witness :
    rxCallbackRing 16 8 2 fullStream = { fullStream with overflowEvent := true } ∧
    acquireReadBuffer { fullStream with overflowEvent := true } =
      (.overflowErr, drainStream { fullStream with overflowEvent := true }) :=
  ⟨(stream_overflow_protocol 16 8 2 fullStream).1 rfl,
   ((stream_overflow_protocol 16 8 2 { fullStream with overflowEvent := true }).2.2.2.1
      rfl rfl).1⟩

/-- C3: every ring operation keeps count between 0 and numBuffers, and a
releaseReadBuffer with the handle returned by a successful acquireReadBuffer
decreases count by exactly one. -/

theorem stream_count_invariant (cap threshold spaceReqd : ℕ) (s : StreamState)
    (handle : ℕ) :
    (s.count ≤ numBuffers →
      (rxCallbackRing cap threshold spaceReqd s).count ≤ numBuffers) ∧
    (s.count ≤ numBuffers → (acquireReadBuffer s).2.count ≤ numBuffers) ∧
    (s.count ≤ numBuffers → (releaseReadBuffer s handle).count ≤ numBuffers) ∧
    (drainStream s).count = 0 ∧
    (∀ h n s', acquireReadBuffer s = (.ok h n, s') →
      s.head < numBuffers → s.bufs.length = numBuffers →
      (releaseReadBuffer s' h).count + 1 = s'.count) := by
  refine ⟨?_, ?_, ?_, rfl, ?_⟩
  · intro hc
    simp only [rxCallbackRing, fillStreamBuffer]
    split_ifs <;> simp <;> omega
  · intro hc
    simp only [acquireReadBuffer, acquireCore, drainStream]
    split_ifs <;> (try simp) <;> omega
  · intro hc
    simp only [releaseReadBuffer]
    split_ifs <;> (try simp) <;> omega
  · intro h n s' heq hh hl
    by_cases h1 : s.reset = true
    · rw [show acquireReadBuffer s = acquireCore { drainStream s with reset := false } by
        simp [acquireReadBuffer, h1]] at heq
      simp [acquireCore, drainStream] at heq
    · by_cases h2 : s.overflowEvent = true
      · rw [show acquireReadBuffer s = (.overflowErr, drainStream s) by
          simp [acquireReadBuffer, h1, h2]] at heq
        simp at heq
      · rw [show acquireReadBuffer s = acquireCore s by
          simp [acquireReadBuffer, h1, h2]] at heq
        by_cases hc : s.count = 0
        · simp [acquireCore, hc] at heq
        · simp only [acquireCore, if_neg hc] at heq
          injection heq with e1 e2
          injection e1 with eh en
          subst eh
          subst e2
          simp only [releaseReadBuffer]
          rw [if_neg hc, if_neg (by simp only [hl]; omega)]
          simp only []
          omega

/-- Witness for C3: the theorem evaluated on a concrete two-buffer ring. -/

theorem stream_count_invariant_witness :
    (rxCallbackRing 16 8 2 twoBufferStream).count ≤ numBuffers ∧
    (releaseReadBuffer (acquireReadBuffer twoBufferStream).2 0).count + 1 =
      (acquireReadBuffer twoBufferStream).2.count :=
  ⟨(stream_count_invariant 16 8 2 twoBufferStream 0).1 (by decide),
   (stream_count_invariant 16 8 2 twoBufferStream 0).2.2.2.2 0 2
     (acquireReadBuffer twoBufferStream).2 (by decide) (by decide) (by decide)⟩

/-- C10: releaseReadBuffer on an empty ring, or with a handle outside the
buffer array, leaves the stream unchanged, so count cannot underflow under
mismatched acquire and release calls. -/

theorem release_read_buffer_guarded (s : StreamState) (handle : ℕ) :
    (s.count = 0 → releaseReadBuffer s handle = s) ∧
    (s.bufs.length ≤ handle → releaseReadBuffer s handle = s) := by
  constructor
  · intro h
    unfold releaseReadBuffer
    rw [if_pos h]
  · intro h
    unfold releaseReadBuffer
    split_ifs <;> rfl

/-- Witness for C10: releasing on a concrete empty ring and with a concrete
out-of-range handle changes nothing. -/

theorem release_read_buffer_guarded_witness :
    releaseReadBuffer (drainStream fullStream) 3 = drainStream fullStream ∧
    releaseReadBuffer fullStream 12 = fullStream :=
  ⟨(release_read_buffer_guarded (drainStream fullStream) 3).1 (by decide),
   (release_read_buffer_guarded fullStream 12).2 (by decide)⟩

/-! ### Shared ring buffer, from src/RingBuffer.cpp

The header counters are uint64 atomics that count samples cumulatively and
never realistically wrap; they are modelled as naturals. M is the ring
capacity in samples (the numSamples field). -/

/-- The shared ring header counters touched by write (RingBufferHeader). -/

theorem ring_write_spec (M count : ℕ) (s : RingState)
    (hle : s.readIdx ≤ s.writeIdx) (hcap : s.writeIdx - s.readIdx ≤ M) :
    (ringWrite M s count).1 = min count (M - (s.writeIdx - s.readIdx)) ∧
    ((ringWrite M s count).2.overflowCount = s.overflowCount + 1 ↔
      count > M - (s.writeIdx - s.readIdx)) ∧
    ((ringWrite M s count).2.overflowCount = s.overflowCount ↔
      ¬ count > M - (s.writeIdx - s.readIdx)) ∧
    (ringWrite M s count).2.writeIdx = s.writeIdx + (ringWrite M s count).1 ∧
    (ringWrite M s count).2.readIdx = s.readIdx ∧
    (ringWrite M s count).2.readIdx ≤ (ringWrite M s count).2.writeIdx ∧
    (ringWrite M s count).2.writeIdx - (ringWrite M s count).2.readIdx ≤ M ∧
    s.writeIdx ≤ (ringWrite M s count).2.writeIdx ∧
    s.sampleCount ≤ (ringWrite M s count).2.sampleCount ∧
    s.overflowCount ≤ (ringWrite M s count).2.overflowCount := by
  simp only [ringWrite, recordOverflow]
  split_ifs <;> (try simp) <;> omega

/-- Witness for C4: a concrete overflowing write on a capacity-4 ring with
two samples of occupied space. -/

theorem ring_write_spec_witness :
    ringState0.readIdx ≤ ringState0.writeIdx ∧
    ringState0.writeIdx - ringState0.readIdx ≤ 4 ∧
    (ringWrite 4 ringState0 10).1 = min 10 (4 - (ringState0.writeIdx - ringState0.readIdx)) ∧
    ((ringWrite 4 ringState0 10).2.overflowCount = ringState0.overflowCount + 1 ↔
      10 > 4 - (ringState0.writeIdx - ringState0.readIdx)) :=
  ⟨by decide, by decide,
   (ring_write_spec 4 10 ringState0 (by decide) (by decide)).1,
   (ring_write_spec 4 10 ringState0 (by decide) (by decide)).2.1⟩

/-! ### Gain element setter, from src/Gain.cpp -/

/-- Gain-related channel state read and written by the element setter:
the AGC enable, the IF gain reduction gRdB, the LNA state, and the
driver-tracked desired values. -/

theorem agc_gates_ifgr_writes (s : GainState) (v : ℤ) :
    (s.agcEnabled = true →
      (setGainElement s .ifgr v).1 = s ∧ (setGainElement s .ifgr v).2 = true) ∧
    ((setGainElement s .rfgr v).1.lnaState = v ∧
     (setGainElement s .rfgr v).2 = false) ∧
    (s.agcEnabled = false →
      (setGainElement s .ifgr v).1.gRdB = v ∧
      (setGainElement s .ifgr v).2 = false) := by
  refine ⟨?_, ?_, ?_⟩
  · intro h
    simp [setGainElement, h]
  · simp only [setGainElement]
    split_ifs with h <;> simp_all
  · intro h
    simp only [setGainElement, h]
    split_ifs with h2 <;> simp_all

/-- Witness for C7: with AGC on, an IFGR write at 30 changes nothing and
warns; the RFGR write applies. -/

theorem agc_gates_ifgr_writes_witness :
    ((setGainElement agcOnState .ifgr 30).1 = agcOnState ∧
     (setGainElement agcOnState .ifgr 30).2 = true) ∧
    (setGainElement agcOnState .rfgr 3).1.lnaState = 3 :=
  ⟨(agc_gates_ifgr_writes agcOnState 30).1 rfl,
   ((agc_gates_ifgr_writes agcOnState 3).2.1).1⟩

/-! ### LNA gain tables and scalar gain mapping, from src/Gain.cpp

The gain arithmetic in the code is double arithmetic over small integers and
clamped differences; it is modelled exactly over the rationals. -/

/-- Embedding of getLnaGainReductions (src/Gain.cpp lines 41-107): the
cumulative LNA gain reduction per LNA state for the device variant and
frequency band. The C++ default fallback row is unreachable for the
supported variants enumerated by HwVer. -/

theorem coverProp_tables (hwVer : HwVer) (rfHz : ℚ) (antenna : String) :
    coverProp (getLnaGainReductions hwVer rfHz antenna) := by
  cases hwVer <;> simp only [getLnaGainReductions] <;> split_ifs <;> decide

theorem clampIf_nonneg (q : ℚ) : 0 ≤ clampIf q := by
  simp only [clampIf]
  split_ifs <;> linarith

theorem clampIf_le (q : ℚ) : clampIf q ≤ 39 := by
  simp only [clampIf]
  split_ifs <;> linarith

theorem clampIf_id (q : ℚ) (h0 : 0 ≤ q) (h39 : q ≤ 39) : clampIf q = q := by
  simp only [clampIf]
  rw [if_neg (not_lt.mpr h0), if_neg (not_lt.mpr h39)]

theorem candIfGr_ge (rs : List ℤ) (t : ℚ) (i : ℕ) : 20 ≤ candIfGr rs t i := by
  unfold candIfGr
  have h : Int.floor (clampIf (t - lnaGainOf rs i)) < 40 :=
    Int.floor_lt.mpr (by have := clampIf_le (t - lnaGainOf rs i); push_cast; linarith)
  omega

theorem candIfGr_le (rs : List ℤ) (t : ℚ) (i : ℕ) : candIfGr rs t i ≤ 59 := by
  unfold candIfGr
  have h : 0 ≤ Int.floor (clampIf (t - lnaGainOf rs i)) :=
    Int.le_floor.mpr (by exact_mod_cast clampIf_nonneg (t - lnaGainOf rs i))
  omega

theorem candErr_lt_one (rs : List ℤ) (t : ℚ) (i : ℕ)
    (h0 : 0 ≤ t - lnaGainOf rs i) (h39 : t - lnaGainOf rs i ≤ 39) :
    candErr rs t i < 1 := by
  unfold candErr candActual candIfGr
  rw [clampIf_id _ h0 h39]
  have hfl : (59 - (59 - Int.floor (t - lnaGainOf rs i)) : ℤ) =
      Int.floor (t - lnaGainOf rs i) := by ring
  rw [hfl]
  have h1 : lnaGainOf rs i + ((Int.floor (t - lnaGainOf rs i) : ℤ) : ℚ) - t =
      -(Int.fract (t - lnaGainOf rs i)) := by
    simp only [Int.fract]
    ring
  rw [h1, abs_neg, abs_of_nonneg (Int.fract_nonneg _)]
  exact Int.fract_lt_one _

theorem selectGainAux_min (rs : List ℤ) (t : ℚ) (l : List ℕ) (acc : ℕ × ℤ × ℚ) :
    (selectGainAux rs t l acc).2.2 ≤ acc.2.2 ∧
    ∀ st ∈ l, (selectGainAux rs t l acc).2.2 ≤ candErr rs t st := by
  induction l generalizing acc with
  | nil => simp [selectGainAux]
  | cons st rest ih =>
      simp only [selectGainAux]
      split_ifs with h
      · obtain ⟨ih1, ih2⟩ := ih (st, candIfGr rs t st, candErr rs t st)
        refine ⟨le_trans ih1 (le_of_lt h), ?_⟩
        intro x hx
        rcases List.mem_cons.mp hx with rfl | hx
        · exact ih1
        · exact ih2 x hx
      · obtain ⟨ih1, ih2⟩ := ih acc
        refine ⟨ih1, ?_⟩
        intro x hx
        rcases List.mem_cons.mp hx with rfl | hx
        · exact le_trans ih1 (not_lt.mp h)
        · exact ih2 x hx

theorem selectGainAux_sound (rs : List ℤ) (t : ℚ) (l : List ℕ) (acc : ℕ × ℤ × ℚ) :
    selectGainAux rs t l acc = acc ∨
    ∃ st ∈ l, selectGainAux rs t l acc =
      (st, candIfGr rs t st, candErr rs t st) := by
  induction l generalizing acc with
  | nil => exact Or.inl rfl
  | cons st rest ih =>
      simp only [selectGainAux]
      split_ifs with h
      · rcases ih (st, candIfGr rs t st, candErr rs t st) with heq | ⟨x, hx, heq⟩
        · exact Or.inr ⟨st, List.mem_cons_self st rest, heq⟩
        · exact Or.inr ⟨x, List.mem_cons_of_mem st hx, heq⟩
      · rcases ih acc with heq | ⟨x, hx, heq⟩
        · exact Or.inl heq
        · exact Or.inr ⟨x, List.mem_cons_of_mem st hx, heq⟩

theorem cover_good_cand (rs : List ℤ) (hc : coverProp rs) (t : ℚ)
    (h0 : 0 ≤ t) (hmax : t ≤ ((rs.getLastD 0 : ℤ) : ℚ) + 39) :
    ∃ i < rs.length, candErr rs t i < 1 := by
  obtain ⟨hne, h00, hlast, hcov⟩ := hc
  by_cases hge : ((rs.getLastD 0 : ℤ) : ℚ) ≤ t
  · refine ⟨0, List.length_pos.mpr hne, ?_⟩
    have hlg : lnaGainOf rs 0 = ((rs.getLastD 0 : ℤ) : ℚ) := by
      unfold lnaGainOf
      rw [h00]
      push_cast
      ring
    exact candErr_lt_one rs t 0 (by rw [hlg]; linarith) (by rw [hlg]; linarith)
  · have ht : t < ((rs.getLastD 0 : ℤ) : ℚ) := not_le.mp hge
    have hfl0 : 0 ≤ Int.floor t := Int.le_floor.mpr (by exact_mod_cast h0)
    have hflt : Int.floor t < rs.getLastD 0 := Int.floor_lt.mpr (by exact_mod_cast ht)
    have hklt : (Int.floor t).toNat < (rs.getLastD 0).toNat + 1 := by omega
    obtain ⟨i, hi, hgle, hgge⟩ :=
      hcov (Int.floor t).toNat (List.mem_range.mpr hklt)
    have hi' : i < rs.length := List.mem_range.mp hi
    refine ⟨i, hi', ?_⟩
    have hkq : (((Int.floor t).toNat : ℤ) : ℚ) = ((Int.floor t : ℤ) : ℚ) := by
      rw [Int.toNat_of_nonneg hfl0]
    have hfle : ((Int.floor t : ℤ) : ℚ) ≤ t := Int.floor_le t
    have hflt1 : t < ((Int.floor t : ℤ) : ℚ) + 1 := Int.lt_floor_add_one t
    have hgleq : ((rs.getLastD 0 - rs.getD i 0 : ℤ) : ℚ) ≤ (((Int.floor t).toNat : ℤ) : ℚ) := by
      exact_mod_cast hgle
    have hggeq : (((Int.floor t).toNat : ℤ) : ℚ) ≤ ((rs.getLastD 0 - rs.getD i 0 : ℤ) : ℚ) + 38 := by
      exact_mod_cast hgge
    refine candErr_lt_one rs t i ?_ ?_
    · unfold lnaGainOf
      rw [hkq] at hgleq
      linarith
    · unfold lnaGainOf
      rw [hkq] at hggeq
      linarith

theorem getGain_eq_candActual (hwVer : HwVer) (rfHz : ℚ) (t : ℚ) (s : GainState)
    (st : ℕ) (hst : st < (getLnaGainReductions hwVer rfHz "").length)
    (hlna : s.lnaState = (st : ℤ))
    (hgr : s.gRdB = candIfGr (getLnaGainReductions hwVer rfHz "") t st) :
    getGain hwVer rfHz s = candActual (getLnaGainReductions hwVer rfHz "") t st := by
  have h20 := candIfGr_ge (getLnaGainReductions hwVer rfHz "") t st
  have h59 := candIfGr_le (getLnaGainReductions hwVer rfHz "") t st
  have h20q : (20 : ℚ) ≤ ((candIfGr (getLnaGainReductions hwVer rfHz "") t st : ℤ) : ℚ) := by
    exact_mod_cast h20
  have h59q : ((candIfGr (getLnaGainReductions hwVer rfHz "") t st : ℤ) : ℚ) ≤ 59 := by
    exact_mod_cast h59
  simp only [getGain, getLnaGainReduction, hlna, hgr]
  rw [if_neg (by omega)]
  rw [Int.toNat_natCast]
  rw [if_neg (show ¬ (59 -
    ((candIfGr (getLnaGainReductions hwVer rfHz "") t st : ℤ) : ℚ) < 0) by linarith)]
  rw [if_neg (show ¬ (59 -
    ((candIfGr (getLnaGainReductions hwVer rfHz "") t st : ℤ) : ℚ) > 39) by linarith)]
  simp only [candActual, lnaGainOf]
  push_cast
  ring

/-- C6 (amended): for every supported variant and band, with AGC disabled,
setting the overall gain to any g between 0 and maxGain and reading it back
yields a value within one step (one dB) of g; the chosen error is minimal
among the per-state candidates whose IF reduction is the floor-truncated
remainder, and the chosen IFGR lies in 20..59. The setter does not minimise
over all (state, IFGR) pairs, because the remainder is truncated down
rather than rounded to nearest; see the counterexample. -/

theorem gain_round_trip (hwVer : HwVer) (rfHz : ℚ) (s : GainState) (g : ℚ)
    (hagc : s.agcEnabled = false) (hg0 : 0 ≤ g) (hgm : g ≤ maxGainOf hwVer rfHz) :
    |getGain hwVer rfHz (setGain hwVer rfHz s g) - g| < 1 ∧
    (∀ i < (getLnaGainReductions hwVer rfHz "").length,
      |getGain hwVer rfHz (setGain hwVer rfHz s g) - g| ≤
        candErr (getLnaGainReductions hwVer rfHz "") g i) ∧
    20 ≤ (setGain hwVer rfHz s g).gRdB ∧ (setGain hwVer rfHz s g).gRdB ≤ 59 := by
  obtain ⟨hne, h00, hlast, hcov⟩ := coverProp_tables hwVer rfHz ""
  set rs := getLnaGainReductions hwVer rfHz "" with hrsdef
  have hpos : 0 < rs.length := List.length_pos.mpr hne
  have hlen1 : rs.length - 1 + 1 = rs.length := Nat.succ_pred_eq_of_pos hpos
  have htarget : max 0 (min (maxGainOf hwVer rfHz) g) = g := by
    rw [min_eq_right hgm, max_eq_right hg0]
  set best := selectGainAux rs g (List.range (rs.length - 1 + 1))
    (0, 20, maxGainOf hwVer rfHz) with hbestdef
  have hsetg : setGain hwVer rfHz s g =
      { s with desiredLnaState := (best.1 : ℤ), desiredIfGr := best.2.1,
               lnaState := (best.1 : ℤ), gRdB := best.2.1 } := by
    simp only [setGain, htarget, hagc, if_pos, ← hrsdef, ← hbestdef]
  have hgmq : g ≤ ((rs.getLastD 0 : ℤ) : ℚ) + 39 := hgm
  obtain ⟨i0, hi0, he0⟩ := cover_good_cand rs ⟨hne, h00, hlast, hcov⟩ g hg0 hgmq
  have hmin := selectGainAux_min rs g (List.range (rs.length - 1 + 1))
    (0, 20, maxGainOf hwVer rfHz)
  have hbe : best.2.2 < 1 :=
    lt_of_le_of_lt (hmin.2 i0 (List.mem_range.mpr (by omega))) he0
  rcases selectGainAux_sound rs g (List.range (rs.length - 1 + 1))
      (0, 20, maxGainOf hwVer rfHz) with heq | ⟨st, hstmem, heq⟩
  · exfalso
    rw [← hbestdef] at heq
    rw [heq] at hbe
    simp only [maxGainOf, ← hrsdef] at hbe
    have h0q : (0 : ℚ) ≤ ((rs.getLastD 0 : ℤ) : ℚ) := by exact_mod_cast hlast
    linarith
  · rw [← hbestdef] at heq
    have hst : st < rs.length := by
      have := List.mem_range.mp hstmem
      omega
    have hb1 : best.1 = st := by rw [heq]
    have hb2 : best.2.1 = candIfGr rs g st := by rw [heq]
    have hb3 : best.2.2 = candErr rs g st := by rw [heq]
    have hget : getGain hwVer rfHz (setGain hwVer rfHz s g) = candActual rs g st := by
      refine getGain_eq_candActual hwVer rfHz g _ st hst ?_ ?_
      · rw [hsetg, hb1]
      · rw [hsetg]
        exact hb2
    have herr : |getGain hwVer rfHz (setGain hwVer rfHz s g) - g| = candErr rs g st := by
      rw [hget]
      rfl
    refine ⟨?_, ?_, ?_, ?_⟩
    · rw [herr, ← hb3]
      exact hbe
    · intro i hi
      rw [herr, ← hb3]
      exact hmin.2 i (List.mem_range.mpr (by omega))
    · rw [hsetg]
      show (20 : ℤ) ≤ best.2.1
      rw [hb2]
      exact candIfGr_ge rs g st
    · rw [hsetg]
      show best.2.1 ≤ (59 : ℤ)
      rw [hb2]
      exact candIfGr_le rs g st

/-- A concrete gain state with AGC disabled, used as a test input. -/

theorem lnaTable_rsp1_vhf :
    getLnaGainReductions HwVer.rsp1 100000000 "" = [0, 24, 19, 43] := by
  norm_num [getLnaGainReductions]

theorem maxGain_rsp1_vhf : maxGainOf HwVer.rsp1 100000000 = 82 := by
  rw [maxGainOf, lnaTable_rsp1_vhf]
  rw [show (([0, 24, 19, 43] : List ℤ).getLastD 0) = 43 from rfl]
  norm_num

theorem lnaGain_rsp1_vhf_0 : lnaGainOf [0, 24, 19, 43] 0 = 43 := by
  rw [lnaGainOf]
  rw [show (([0, 24, 19, 43] : List ℤ).getLastD 0 -
    ([0, 24, 19, 43] : List ℤ).getD 0 0) = 43 from rfl]
  norm_num

theorem lnaGain_rsp1_vhf_1 : lnaGainOf [0, 24, 19, 43] 1 = 19 := by
  rw [lnaGainOf]
  rw [show (([0, 24, 19, 43] : List ℤ).getLastD 0 -
    ([0, 24, 19, 43] : List ℤ).getD 1 0) = 19 from rfl]
  norm_num

theorem lnaGain_rsp1_vhf_2 : lnaGainOf [0, 24, 19, 43] 2 = 24 := by
  rw [lnaGainOf]
  rw [show (([0, 24, 19, 43] : List ℤ).getLastD 0 -
    ([0, 24, 19, 43] : List ℤ).getD 2 0) = 24 from rfl]
  norm_num

theorem lnaGain_rsp1_vhf_3 : lnaGainOf [0, 24, 19, 43] 3 = 0 := by
  rw [lnaGainOf]
  rw [show (([0, 24, 19, 43] : List ℤ).getLastD 0 -
    ([0, 24, 19, 43] : List ℤ).getD 3 0) = 0 from rfl]
  norm_num

theorem candIfGr_rsp1_vhf_0 : candIfGr [0, 24, 19, 43] (9 / 10) 0 = 59 := by
  rw [candIfGr, lnaGain_rsp1_vhf_0]
  rw [show clampIf (9 / 10 - 43) = 0 by rw [clampIf]; norm_num]
  norm_num

theorem candIfGr_rsp1_vhf_1 : candIfGr [0, 24, 19, 43] (9 / 10) 1 = 59 := by
  rw [candIfGr, lnaGain_rsp1_vhf_1]
  rw [show clampIf (9 / 10 - 19) = 0 by rw [clampIf]; norm_num]
  norm_num

theorem candIfGr_rsp1_vhf_2 : candIfGr [0, 24, 19, 43] (9 / 10) 2 = 59 := by
  rw [candIfGr, lnaGain_rsp1_vhf_2]
  rw [show clampIf (9 / 10 - 24) = 0 by rw [clampIf]; norm_num]
  norm_num

theorem candIfGr_rsp1_vhf_3 : candIfGr [0, 24, 19, 43] (9 / 10) 3 = 59 := by
  rw [candIfGr, lnaGain_rsp1_vhf_3]
  rw [show clampIf (9 / 10 - 0) = 9 / 10 by rw [clampIf]; norm_num]
  rw [show Int.floor ((9 : ℚ) / 10) = 0 by norm_num]
  norm_num

theorem candErr_rsp1_vhf_0 : candErr [0, 24, 19, 43] (9 / 10) 0 = 421 / 10 := by
  rw [candErr, candActual, candIfGr_rsp1_vhf_0, lnaGain_rsp1_vhf_0]
  rw [abs_of_nonneg (by norm_num)]
  norm_num

theorem candErr_rsp1_vhf_1 : candErr [0, 24, 19, 43] (9 / 10) 1 = 181 / 10 := by
  rw [candErr, candActual, candIfGr_rsp1_vhf_1, lnaGain_rsp1_vhf_1]
  rw [abs_of_nonneg (by norm_num)]
  norm_num

theorem candErr_rsp1_vhf_2 : candErr [0, 24, 19, 43] (9 / 10) 2 = 231 / 10 := by
  rw [candErr, candActual, candIfGr_rsp1_vhf_2, lnaGain_rsp1_vhf_2]
  rw [abs_of_nonneg (by norm_num)]
  norm_num

theorem candErr_rsp1_vhf_3 : candErr [0, 24, 19, 43] (9 / 10) 3 = 9 / 10 := by
  rw [candErr, candActual, candIfGr_rsp1_vhf_3, lnaGain_rsp1_vhf_3]
  rw [abs_of_nonpos (by norm_num)]
  norm_num

theorem selectGain_rsp1_vhf :
    selectGainAux [0, 24, 19, 43] (9 / 10) [0, 1, 2, 3] (0, 20, 82) =
      (3, 59, 9 / 10) := by
  rw [selectGainAux]
  rw [if_pos (by rw [candErr_rsp1_vhf_0]; norm_num)]
  rw [selectGainAux]
  rw [if_pos (by rw [candErr_rsp1_vhf_1, candErr_rsp1_vhf_0]; norm_num)]
  rw [selectGainAux]
  rw [if_neg (by rw [candErr_rsp1_vhf_2, candErr_rsp1_vhf_1]; norm_num)]
  rw [selectGainAux]
  rw [if_pos (by rw [candErr_rsp1_vhf_3, candErr_rsp1_vhf_1]; norm_num)]
  rw [selectGainAux]
  rw [candErr_rsp1_vhf_3, candIfGr_rsp1_vhf_3]

theorem setGain_rsp1_vhf_eval : setGain HwVer.rsp1 100000000 agcOffState (9 / 10) =
    { agcEnabled := false, gRdB := 59, lnaState := 3, desiredIfGr := 59,
      desiredLnaState := 3 } := by
  simp only [setGain, lnaTable_rsp1_vhf, maxGain_rsp1_vhf]
  rw [show max 0 (min (82 : ℚ) (9 / 10)) = 9 / 10 by norm_num]
  rw [show ([0, 24, 19, 43] : List ℤ).length - 1 + 1 = 4 from rfl]
  rw [show List.range 4 = [0, 1, 2, 3] from rfl]
  rw [selectGain_rsp1_vhf]
  rfl

theorem getGain_rsp1_vhf_chosen : getGain HwVer.rsp1 100000000
    { agcEnabled := false, gRdB := 59, lnaState := 3, desiredIfGr := 59,
      desiredLnaState := 3 } = 0 := by
  simp only [getGain, getLnaGainReduction, lnaTable_rsp1_vhf]
  rw [if_neg (by norm_num)]
  rw [show (([0, 24, 19, 43] : List ℤ).getD ((3 : ℤ)).toNat 0) = 43 from rfl]
  norm_num

theorem getGain_rsp1_vhf_alt : getGain HwVer.rsp1 100000000
    { agcOffState with lnaState := 3, gRdB := 58 } = 1 := by
  simp only [getGain, getLnaGainReduction, lnaTable_rsp1_vhf]
  rw [if_neg (by norm_num)]
  rw [show (([0, 24, 19, 43] : List ℤ).getD ((3 : ℤ)).toNat 0) = 43 from rfl]
  norm_num

/-- C6 counterexample: on an RSP1 at 100 MHz with AGC off and target gain
0.9 dB the setter picks the pair (LNA state 3, IFGR 59), whose read-back
error is 0.9 dB, although the valid pair (LNA state 3, IFGR 58) attains
error 0.1 dB: the setter does not choose the (state, IFGR) pair minimising
the distance to the target, because the per-state IF remainder is truncated
down instead of rounded to nearest. -/

theorem gain_setter_not_pair_minimising :
    (setGain HwVer.rsp1 100000000 agcOffState (9 / 10)).lnaState = 3 ∧
    (setGain HwVer.rsp1 100000000 agcOffState (9 / 10)).gRdB = 59 ∧
    (20 : ℤ) ≤ 58 ∧ (58 : ℤ) ≤ 59 ∧
    |getGain HwVer.rsp1 100000000 { agcOffState with lnaState := 3, gRdB := 58 } -
        9 / 10| <
      |getGain HwVer.rsp1 100000000
          (setGain HwVer.rsp1 100000000 agcOffState (9 / 10)) - 9 / 10| := by
  refine ⟨by rw [setGain_rsp1_vhf_eval], by rw [setGain_rsp1_vhf_eval],
    by norm_num, by norm_num, ?_⟩
  rw [setGain_rsp1_vhf_eval, getGain_rsp1_vhf_chosen, getGain_rsp1_vhf_alt]
  rw [abs_of_nonneg (by norm_num), abs_of_nonpos (by norm_num)]
  norm_num

/-- Witness for C6: the round-trip theorem evaluated on an RSP1 at 100 MHz
with target 25 dB. -/

theorem gain_round_trip_witness :
    agcOffState.agcEnabled = false ∧ (0 : ℚ) ≤ 25 ∧
    (25 : ℚ) ≤ maxGainOf HwVer.rsp1 100000000 ∧
    |getGain HwVer.rsp1 100000000 (setGain HwVer.rsp1 100000000 agcOffState 25) -
      25| < 1 :=
  ⟨rfl, by norm_num, by rw [maxGain_rsp1_vhf]; norm_num,
   (gain_round_trip HwVer.rsp1 100000000 agcOffState 25 rfl (by norm_num)
     (by rw [maxGain_rsp1_vhf]; norm_num)).1⟩

/-! ### Control messages and pipe receive, from src/IPCPipe.cpp

Byte buffers are lists of naturals below 256. The uint32 fields written by
memcpy are modelled little-endian, as on the targets the code runs on. -/

/-- The value of a size_t cast to uint32_t. -/

theorem le32_length (n : ℕ) : (le32 n).length = 4 := rfl

theorem decode32_le32 (n : ℕ) (h : n < 4294967296) : decode32 (le32 n) = n := by
  show n % 256 + n / 256 % 256 * 256 + n / 65536 % 256 * 65536 +
    n / 16777216 % 256 * 16777216 = n
  omega

theorem toU32_of_lt (n : ℕ) (h : n < 4294967296) : toU32 n = n := Nat.mod_eq_of_lt h

theorem lexLt_irrefl (a : List ℕ) : lexLt a a = false := by
  induction a with
  | nil => rfl
  | cons x xs ih => simp [lexLt, ih]

theorem lexLt_asymm (a b : List ℕ) (h : lexLt a b = true) : lexLt b a = false := by
  induction a generalizing b with
  | nil =>
      cases b with
      | nil => simp [lexLt] at h
      | cons y ys => rfl
  | cons x xs ih =>
      cases b with
      | nil => simp [lexLt] at h
      | cons y ys =>
          simp only [lexLt] at h ⊢
          split_ifs at h ⊢ <;> first | rfl | omega | exact ih ys h

theorem mapInsert_append (k v : List ℕ) (acc : List (List ℕ × List ℕ))
    (hgt : ∀ kv ∈ acc, lexLt kv.1 k = true) :
    mapInsert k v acc = acc ++ [(k, v)] := by
  induction acc with
  | nil => rfl
  | cons kv1 rest ih =>
      obtain ⟨k1, v1⟩ := kv1
      have h1 : lexLt k1 k = true := hgt (k1, v1) (List.mem_cons_self _ _)
      simp only [mapInsert]
      rw [if_neg (by simp [lexLt_asymm k1 k h1])]
      rw [if_neg (by rintro rfl; simp [lexLt_irrefl] at h1)]
      rw [ih (fun kv hkv => hgt kv (List.mem_cons_of_mem _ hkv))]
      rfl

theorem readParams_cons (n : ℕ) (K V : List ℕ) (tail : List ℕ)
    (acc : List (List ℕ × List ℕ))
    (hK : K.length < 4294967296) (hV : V.length < 4294967296) :
    readParams (n + 1) (serializeParam (K, V) ++ tail) acc =
      readParams n tail (mapInsert K V acc) := by
  have hKu : toU32 K.length = K.length := toU32_of_lt _ hK
  have hVu : toU32 V.length = V.length := toU32_of_lt _ hV
  simp only [serializeParam, hKu, hVu, List.take_length, List.append_assoc]
  rw [readParams]
  rw [if_neg (by simp [le32])]
  rw [if_neg (by simp [le32])]
  simp only [List.take_left', List.drop_left', le32_length, decode32_le32 _ hK,
    decode32_le32 _ hV, List.length_append]
  rw [if_neg (by omega)]
  rw [if_neg (by omega)]
  rw [if_neg (by omega)]

theorem readParams_append (ps : List (List ℕ × List ℕ)) (acc : List (List ℕ × List ℕ))
    (hlen : ∀ kv ∈ ps, kv.1.length < 4294967296 ∧ kv.2.length < 4294967296)
    (hsorted : ps.Pairwise (fun a b => lexLt a.1 b.1 = true))
    (hacc : ∀ a ∈ acc, ∀ b ∈ ps, lexLt a.1 b.1 = true) :
    readParams ps.length (ps.flatMap serializeParam) acc = acc ++ ps := by
  induction ps generalizing acc with
  | nil => simp [readParams]
  | cons kv ps ih =>
      obtain ⟨K, V⟩ := kv
      obtain ⟨hK, hV⟩ := hlen (K, V) (List.mem_cons_self _ _)
      rw [List.length_cons, List.flatMap_cons]
      rw [readParams_cons _ K V _ acc hK hV]
      rw [mapInsert_append K V acc
        (fun a ha => hacc a ha (K, V) (List.mem_cons_self _ _))]
      rw [ih (acc ++ [(K, V)]) (fun x hx => hlen x (List.mem_cons_of_mem _ hx))
        (List.Pairwise.of_cons hsorted) ?hacc2]
      · simp
      case hacc2 =>
        intro a ha b hb
        rcases List.mem_append.mp ha with ha1 | ha2
        · exact hacc a ha1 b (List.mem_cons_of_mem _ hb)
        · have : a = (K, V) := by simpa using ha2
          subst this
          exact (List.pairwise_cons.mp hsorted).1 b hb

/-- C8 (amended): serialising and deserialising a control message returns an
identical message for every message type below 2^32 and every params map
with fewer than 2^32 entries whose keys and values are each shorter than
2^32 bytes (the map iteration sequence being strictly key-sorted, the
std::map invariant). The entry-count bound is forced by the uint32 cast of
params.size(); see the counterexample. -/

theorem serialize_roundtrip (m : IPCMessage)
    (htype : m.type < 4294967296)
    (hcount : m.params.length < 4294967296)
    (hlen : ∀ kv ∈ m.params, kv.1.length < 4294967296 ∧ kv.2.length < 4294967296)
    (hsorted : m.params.Pairwise (fun a b => lexLt a.1 b.1 = true)) :
    deserialize (serialize m) = m := by
  obtain ⟨t, ps⟩ := m
  simp only at htype hcount hlen hsorted
  simp only [serialize, deserialize, toU32_of_lt _ htype, toU32_of_lt _ hcount,
    List.append_assoc]
  rw [if_neg (by simp [le32])]
  rw [List.take_left' (le32_length t)]
  rw [decode32_le32 _ htype]
  rw [List.drop_left' (le32_length t)]
  rw [List.take_left' (le32_length ps.length)]
  rw [decode32_le32 _ hcount]
  rw [show (8 : ℕ) = 4 + 4 from rfl, ← List.drop_drop]
  rw [List.drop_left' (le32_length t)]
  rw [List.drop_left' (le32_length ps.length)]
  rw [readParams_append ps [] hlen hsorted (by simp)]
  simp

theorem serialize_roundtrip_witness :
    sampleMsg.type < 4294967296 ∧
    sampleMsg.params.length < 4294967296 ∧
    deserialize (serialize sampleMsg) = sampleMsg :=
  ⟨by decide, by decide,
   serialize_roundtrip sampleMsg (by decide) (by decide) (by decide) (by decide)⟩

theorem lexLt_replicate (i j : ℕ) (h : i < j) :
    lexLt (List.replicate i 0) (List.replicate j 0) = true := by
  induction i generalizing j with
  | zero =>
      cases j with
      | zero => omega
      | succ j2 => simp [List.replicate, lexLt]
  | succ i2 ih =>
      cases j with
      | zero => omega
      | succ j2 =>
          simp only [List.replicate, lexLt]
          rw [if_neg (by omega), if_neg (by omega)]
          exact ih j2 (by omega)

/-- A wrapped-entry-count frame deserialises to an empty params map: when
the uint32 cast of the entry count is zero, the reading loop runs zero
iterations whatever the payload is. -/

theorem deserialize_zero_count (t : ℕ) (ps : List (List ℕ × List ℕ))
    (hcnt : toU32 ps.length = 0) :
    (deserialize (serialize { type := t, params := ps })).params = [] := by
  have hser : serialize { type := t, params := ps } =
      le32 (toU32 t) ++ (le32 (toU32 ps.length) ++ ps.flatMap serializeParam) := by
    simp only [serialize, List.append_assoc]
  rw [hser, deserialize]
  rw [if_neg (by simp [le32])]
  simp only
  rw [List.drop_left' (le32_length _), List.take_left' (le32_length _)]
  rw [hcnt, decode32_le32 0 (by omega), readParams]

/-- A message whose entry count wraps to zero under the uint32 cast cannot
survive the round trip when its params map is nonempty. -/

theorem deserialize_ne_of_wrapped (t : ℕ) (ps : List (List ℕ × List ℕ))
    (hne : ps ≠ []) (hcnt : toU32 ps.length = 0) :
    deserialize (serialize { type := t, params := ps }) ≠
      ({ type := t, params := ps } : IPCMessage) := by
  intro hcontra
  have h1 := deserialize_zero_count t ps hcnt
  rw [hcontra] at h1
  exact hne h1

/-- C8 counterexample: a params map with exactly 2^32 entries, each key and
value shorter than 2^32 bytes as the claim demands, does not survive the
round trip: serialize casts params.size() to uint32, writing an entry count
of zero, so deserialize returns an empty map. -/

theorem ipc_roundtrip_huge_map :
    hugeMsg.params.length = 4294967296 ∧
    hugeMsg.params.Pairwise (fun a b => lexLt a.1 b.1 = true) ∧
    hugeMsg.params.all
      (fun kv => decide (kv.1.length < 4294967296) &&
                 decide (kv.2.length < 4294967296)) = true ∧
    deserialize (serialize hugeMsg) ≠ hugeMsg := by
  have hlen : hugeMsg.params.length = 4294967296 := by
    simp only [hugeMsg, List.length_map, List.length_range]
    rfl
  refine ⟨hlen, ?_, ?_, ?_⟩
  · simp only [hugeMsg, List.pairwise_map]
    refine List.Pairwise.imp ?_ (List.pairwise_lt_range u32Count)
    intro a b hab
    exact lexLt_replicate a b hab
  · rw [List.all_eq_true]
    intro kv hkv
    simp only [hugeMsg] at hkv
    obtain ⟨i, hir, rfl⟩ := List.mem_map.mp hkv
    have hi := List.mem_range.mp hir
    show (decide ((List.replicate i 0).length < 4294967296) &&
      decide (([] : List ℕ).length < 4294967296)) = true
    rw [List.length_replicate, List.length_nil]
    rw [Bool.and_eq_true, decide_eq_true_eq, decide_eq_true_eq]
    have hu : u32Count = 4294967296 := rfl
    omega
  · have key := deserialize_ne_of_wrapped 1
        ((List.range u32Count).map (fun i => (List.replicate i 0, [])))
        (by
          intro h
          have hl := congrArg List.length h
          rw [List.length_map, List.length_range, List.length_nil] at hl
          rw [show u32Count = 4294967296 from rfl] at hl
          omega)
        (by
          rw [List.length_map, List.length_range]
          rw [show u32Count = 4294967296 from rfl]
          exact Nat.mod_self 4294967296)
    exact key

/-- C9 (amended): a frame whose 4-byte length prefix exceeds 1 MiB makes
receive deliver no message and consume only the length prefix; the
receiving pipe is left open (the descriptor stays valid), not closed. -/

theorem receive_oversized_frame (s : PipeState) (hfd : s.fdValid = true)
    (hlen4 : 4 ≤ s.input.length)
    (hbig : 1048576 < decode32 (s.input.take 4)) :
    (receive s).1 = none ∧
    (receive s).2 = { s with input := s.input.drop 4 } ∧
    (receive s).2.fdValid = true := by
  have h1 : readExact s 4 =
      (some (s.input.take 4), { s with input := s.input.drop 4 }) := by
    unfold readExact
    rw [if_neg (by rw [hfd]; simp), if_neg (by omega)]
  have h2 : receive s = (none, { s with input := s.input.drop 4 }) := by
    unfold receive
    rw [h1]
    simp only
    rw [if_pos hbig]
  refine ⟨by rw [h2], by rw [h2], by rw [h2, hfd]⟩

/-- C9 counterexample: on a live pipe whose next frame announces 2 MiB,
receive delivers no message but the descriptor remains valid, contradicting
the claim that the receiving pipe is closed. -/

theorem receive_oversized_keeps_pipe_open :
    (receive oversizedPipe).1 = none ∧
    (receive oversizedPipe).2.fdValid = true ∧
    1048576 < decode32 (oversizedPipe.input.take 4) := by decide

/-- Witness for C9: the amended theorem evaluated on the concrete 2 MiB
frame. -/

theorem receive_oversized_frame_witness :
    (receive oversizedPipe).1 = none ∧
    (receive oversizedPipe).2 =
      { oversizedPipe with input := oversizedPipe.input.drop 4 } :=
  ⟨(receive_oversized_frame oversizedPipe rfl (by decide) (by decide)).1,
   (receive_oversized_frame oversizedPipe rfl (by decide) (by decide)).2.1⟩

end SoapySDRPlay3
